import Mathlib

/-!
Shallow embedding of the grid widget implemented in `src/Tableview.tsx`.

The widget keeps a matrix of cells (`tableRows : TableRow[]`), a transient
selection (`selectedCells : Set<string>` of ids of the shape `cell_{r}_{c}`),
and a selection-mode flag.  Cell ids are in bijection with the pair of
1-based indices they print, so the selection is modelled as a list of
`(row, column)` pairs (a JS `Set` iterated in insertion order, without
duplicates).  All numeric fields are JS integers within safe range here,
modelled as `Nat`.  The JSON string layer of the snapshot codec
(`JSON.stringify` / `JSON.parse`) is the identity on this finite record data
and is elided; absent JSON fields read through `x || default` are
indistinguishable from their falsy value (`""`, `0`, `false`), so those raw
fields are total, while `isBlocked` — read through an explicit
`!== undefined` test — is modelled as `Option Bool`.
-/

namespace Tableview

/-- Mirrors the `CellObject` interface of `src/Tableview.tsx` (the redundant
string `id`, always `cell_{rowIndex}_{columnIndex}`, is dropped). -/
structure CellObject where
  sequenceNumber : String
  isBlocked : Bool
  isMerged : Bool
  mergeId : String
  isBlank : Bool
  rowIndex : Nat
  columnIndex : Nat
  checked : Bool
  isSelected : Bool
  rowSpan : Nat
  colSpan : Nat
  isHidden : Bool
deriving DecidableEq

/-- Mirrors the `TableRow` interface (string `id` dropped as for cells). -/
structure TableRow where
  rowIndex : Nat
  cells : List CellObject
deriving DecidableEq

/-- The component state touched by the modelled handlers: `tableRows`,
`selectedCells` and `isSelectionMode`. -/
structure TableviewState where
  tableRows : List TableRow
  selectedCells : List (Nat × Nat)
  isSelectionMode : Bool
deriving DecidableEq

/-- `rows.find(r => r.rowIndex === rowIndex)`. -/
def findRow (rows : List TableRow) (r : Nat) : Option TableRow :=
  rows.find? (fun row => row.rowIndex == r)

/-- `rows.find(r => r.rowIndex === rowIndex)?.cells.find(c => c.columnIndex === colIndex)` —
the cell-lookup idiom used throughout the source. -/
def findCell (rows : List TableRow) (r c : Nat) : Option CellObject :=
  (findRow rows r).bind (fun row => row.cells.find? (fun cell => cell.columnIndex == c))

/-- Mutating the first cell of a row whose `columnIndex` matches —
the effect of `cells.find(...)` followed by an in-place write. -/
def updateFirstCell (cells : List CellObject) (c : Nat) (f : CellObject → CellObject) :
    List CellObject :=
  match cells with
  | [] => []
  | cell :: rest =>
    if cell.columnIndex == c then f cell :: rest
    else cell :: updateFirstCell rest c f

/-- Mutating the cell found by `findCell` in place (first matching row,
first matching cell). -/
def updateCellAt (rows : List TableRow) (r c : Nat) (f : CellObject → CellObject) :
    List TableRow :=
  match rows with
  | [] => []
  | row :: rest =>
    if row.rowIndex == r then { row with cells := updateFirstCell row.cells c f } :: rest
    else row :: updateCellAt rest r c f

/-- `newRows.forEach(row => row.cells.forEach(cell => ...))` applying a
pointwise rewrite to every cell. -/
def mapCells (rows : List TableRow) (g : CellObject → CellObject) : List TableRow :=
  rows.map (fun row => { row with cells := row.cells.map g })

/-- All cells of the grid in row-major order. -/
def allCells (rows : List TableRow) : List CellObject :=
  rows.flatMap (fun row => row.cells)

/-- `Math.min(...xs)` over a list (the source only applies it to non-empty
lists; the `[]` value is irrelevant). -/
def listMin : List Nat → Nat
  | [] => 0
  | x :: xs => xs.foldl Nat.min x

/-- `Math.max(...xs)` over a list. -/
def listMax : List Nat → Nat
  | [] => 0
  | x :: xs => xs.foldl Nat.max x

/-- The row-major traversal `for (r = minRow; r <= maxRow; r++) for (c = minCol; c <= maxCol; c++)`
used by the merge loops and by `getRectangularSelection`. -/
def rectList (minRow maxRow minCol maxCol : Nat) : List (Nat × Nat) :=
  (List.range' minRow (maxRow - minRow + 1)).flatMap
    (fun r => (List.range' minCol (maxCol - minCol + 1)).map (fun c => (r, c)))

/-- `` createMergeId = (r1, c1, r2, c2) => `${r1}${c1}${r2}${c2}` ``. -/
def createMergeId (r1 c1 r2 c2 : Nat) : String :=
  toString r1 ++ toString c1 ++ toString r2 ++ toString c2

/-- The four derived counters written by `updateCellStatistics`. -/
structure CellStatistics where
  total : Nat
  blocked : Nat
  merged : Nat
  blank : Nat
deriving DecidableEq

/-- `updateCellStatistics`: the four `reduce`-computed counters. -/
def updateCellStatistics (rows : List TableRow) : CellStatistics where
  total := rows.foldl (fun s row => s + row.cells.length) 0
  blocked := rows.foldl (fun s row => s + (row.cells.filter (fun c => c.isBlocked)).length) 0
  merged := rows.foldl
    (fun s row => s + (row.cells.filter (fun c => c.isMerged && !c.isHidden)).length) 0
  blank := rows.foldl
    (fun s row => s + (row.cells.filter (fun c => c.isBlank && !c.isHidden)).length) 0

/-- `getRectangularSelection`: ids of all cells of the axis-aligned inclusive
rectangle spanned by the two corners, independent of grid contents. -/
def getRectangularSelection (startRow startCol endRow endCol : Nat) : List (Nat × Nat) :=
  rectList (Nat.min startRow endRow) (Nat.max startRow endRow)
    (Nat.min startCol endCol) (Nat.max startCol endCol)

/-- `handleCellMouseEnter` while a drag is active: the new selection is the
restore-point snapshot (`preSelectionRef`) unioned with the rectangle spanned
by the drag anchor and the entered cell. -/
def handleCellMouseEnter (preSelection : List (Nat × Nat))
    (anchorRow anchorCol rowIndex colIndex : Nat) : List (Nat × Nat) :=
  preSelection ++ (getRectangularSelection anchorRow anchorCol rowIndex colIndex).filter
    (fun p => !preSelection.contains p)

/-- `handleCellValueChange`: write the new text value to the target cell and,
when it belongs to a merge group, to every cell sharing its `mergeId`;
`isBlocked` is intentionally not touched. -/
def handleCellValueChange (rows : List TableRow) (rowIndex colIndex : Nat)
    (newValue : String) : List TableRow :=
  match findCell rows rowIndex colIndex with
  | none => rows
  | some target =>
    let rows1 := updateCellAt rows rowIndex colIndex
      (fun cell => { cell with sequenceNumber := newValue })
    if target.mergeId != "" then
      mapCells rows1 (fun cell =>
        if cell.mergeId == target.mergeId then { cell with sequenceNumber := newValue }
        else cell)
    else rows1

/-- `handleCheckboxChange`: flip the target's `checked` and drive `checked`,
`isBlocked` and `isSelected` from the new value, propagated across the
target's merge group when it has one. -/
def handleCheckboxChange (rows : List TableRow) (rowIndex colIndex : Nat) : List TableRow :=
  match findCell rows rowIndex colIndex with
  | none => rows
  | some target =>
    let newChecked := !target.checked
    let rows1 := updateCellAt rows rowIndex colIndex
      (fun cell =>
        { cell with
          checked := newChecked
          isBlocked := newChecked
          isSelected := newChecked })
    if target.mergeId != "" then
      mapCells rows1 (fun cell =>
        if cell.mergeId == target.mergeId then
          { cell with
            checked := newChecked
            isBlocked := newChecked
            isSelected := newChecked }
        else cell)
    else rows1

/-- One step of the dissolve loop inside `mergeCells`: if the cell at the
given position already belongs to a merge group, reset every cell sharing
that group id. -/
def dissolveAt (rows : List TableRow) (rc : Nat × Nat) : List TableRow :=
  match findCell rows rc.1 rc.2 with
  | none => rows
  | some cell =>
    if cell.isMerged && cell.mergeId != "" then
      mapCells rows (fun c2 =>
        if c2.mergeId == cell.mergeId then
          { c2 with
            isMerged := false
            rowSpan := 1
            colSpan := 1
            isHidden := false
            mergeId := "" }
        else c2)
    else rows

/-- The per-cell write of the merge loop: copy the top-left cell's value and
state, join the new group, and set span/hidden according to whether the cell
is the anchor. -/
def mergeWrite (tl : CellObject) (mid : String) (minRow minCol maxRow maxCol : Nat)
    (rc : Nat × Nat) (cell : CellObject) : CellObject :=
  { cell with
    sequenceNumber := tl.sequenceNumber
    checked := tl.checked
    isBlocked := tl.isBlocked
    isSelected := tl.isBlocked
    isBlank := tl.isBlank
    isMerged := true
    mergeId := mid
    rowSpan := if rc.1 == minRow && rc.2 == minCol then maxRow - minRow + 1 else 1
    colSpan := if rc.1 == minRow && rc.2 == minCol then maxCol - minCol + 1 else 1
    isHidden := !(rc.1 == minRow && rc.2 == minCol) }

/-- `mergeCells`: requires at least 2 selected cells (silent no-op below),
rejects with an alert when the selection is not exactly its bounding
rectangle, otherwise dissolves any overlapped groups, copies the top-left
cell's state over the rectangle, and collapses the selection to the anchor. -/
def mergeCells (st : TableviewState) : TableviewState × Option String :=
  if st.selectedCells.length < 2 then (st, none)
  else
    let positions := st.selectedCells
    let minRow := listMin (positions.map Prod.fst)
    let maxRow := listMax (positions.map Prod.fst)
    let minCol := listMin (positions.map Prod.snd)
    let maxCol := listMax (positions.map Prod.snd)
    if st.selectedCells.length ≠ (maxRow - minRow + 1) * (maxCol - minCol + 1) then
      (st, some "Please select a rectangular area to merge")
    else
      let rows1 := (rectList minRow maxRow minCol maxCol).foldl dissolveAt st.tableRows
      let mid := createMergeId minRow minCol maxRow maxCol
      let newRows :=
        match findCell rows1 minRow minCol with
        | none => st.tableRows
        | some tl =>
          (rectList minRow maxRow minCol maxCol).foldl
            (fun rs rc => updateCellAt rs rc.1 rc.2 (mergeWrite tl mid minRow minCol maxRow maxCol rc))
            rows1
      ({ tableRows := newRows, selectedCells := [(minRow, minCol)],
         isSelectionMode := st.isSelectionMode }, none)

/-- `unmergeCells`: acts on the first selected cell only; when it is part of
a merge group, every cell sharing its group id is reset to the unmerged
shape; otherwise (or with an empty selection) nothing changes. -/
def unmergeCells (st : TableviewState) : TableviewState :=
  match st.selectedCells with
  | [] => st
  | (r, c) :: _ =>
    match findCell st.tableRows r c with
    | none => st
    | some target =>
      if target.isMerged then
        { st with tableRows := mapCells st.tableRows (fun cell =>
            if cell.mergeId == target.mergeId then
              { cell with
                isMerged := false
                rowSpan := 1
                colSpan := 1
                isHidden := false
                mergeId := "" }
            else cell) }
      else st

/-- One step of the `selectedCells.forEach` loop of `blankSelectedCells`
(`b = true`) and `unblankSelectedCells` (`b = false`): skip missing or
hidden cells, otherwise write `isBlank := b` to the cell and, when it
belongs to a merge group, to every cell sharing its `mergeId`. -/
def setBlankStep (b : Bool) (rows : List TableRow) (rc : Nat × Nat) : List TableRow :=
  match findCell rows rc.1 rc.2 with
  | none => rows
  | some cell =>
    if cell.isHidden then rows
    else
      let rows1 := updateCellAt rows rc.1 rc.2 (fun c => { c with isBlank := b })
      if cell.mergeId != "" then
        mapCells rows1 (fun c =>
          if c.mergeId == cell.mergeId then { c with isBlank := b } else c)
      else rows1

/-- `blankSelectedCells`: blank each selected visible cell (group-propagated),
then clear the selection and leave selection mode. Empty selection: no-op. -/
def blankSelectedCells (st : TableviewState) : TableviewState :=
  if st.selectedCells.isEmpty then st
  else
    { tableRows := st.selectedCells.foldl (setBlankStep true) st.tableRows
      selectedCells := []
      isSelectionMode := false }

/-- `unblankSelectedCells`: the exact dual of `blankSelectedCells`. -/
def unblankSelectedCells (st : TableviewState) : TableviewState :=
  if st.selectedCells.isEmpty then st
  else
    { tableRows := st.selectedCells.foldl (setBlankStep false) st.tableRows
      selectedCells := []
      isSelectionMode := false }

/-- The default cell produced by `createNewTable` / `addRow` / `addColumn`. -/
def defaultCell (rowIndex colIndex : Nat) : CellObject where
  sequenceNumber := "-"
  isBlocked := false
  isMerged := false
  mergeId := ""
  isBlank := false
  rowIndex := rowIndex
  columnIndex := colIndex
  checked := false
  isSelected := false
  rowSpan := 1
  colSpan := 1
  isHidden := false

/-- `createNewTable`: a fresh rows × cols grid of default cells. -/
def createNewTable (rows cols : Nat) : List TableRow :=
  (List.range' 1 rows).map (fun r =>
    { rowIndex := r, cells := (List.range' 1 cols).map (fun c => defaultCell r c) })

/-- `applyDimensions` (the Generate Table entry point): reject non-positive
or > 100 dimensions with an alert keeping the state intact, otherwise rebuild
the grid at the requested size with an empty selection. -/
def applyDimensions (st : TableviewState) (rowCount columnCount : Nat) :
    TableviewState × Option String :=
  if rowCount == 0 || columnCount == 0 then
    (st, some "Rows and columns must be positive numbers")
  else if 100 < rowCount || 100 < columnCount then
    (st, some "Maximum 100 rows and 100 columns")
  else
    ({ tableRows := createNewTable rowCount columnCount, selectedCells := [],
       isSelectionMode := false }, none)

/-- `addRow`: reject with an alert when the new row count would exceed 100,
otherwise append one default row; returns the grid, the row count and the
alert message. -/
def addRow (rows : List TableRow) (rowCount columnCount : Nat) :
    List TableRow × Nat × Option String :=
  if 100 < rowCount + 1 then (rows, rowCount, some "Maximum 100 rows")
  else
    (rows ++ [{ rowIndex := rowCount + 1,
                cells := (List.range' 1 columnCount).map
                  (fun c => defaultCell (rowCount + 1) c) }],
      rowCount + 1, none)

/-- `addColumn`: reject with an alert when the new column count would exceed
100, otherwise append one default cell to every row. -/
def addColumn (rows : List TableRow) (_rowCount columnCount : Nat) :
    List TableRow × Nat × Option String :=
  if 100 < columnCount + 1 then (rows, columnCount, some "Maximum 100 columns")
  else
    (rows.map (fun row =>
        { row with cells := row.cells ++ [defaultCell row.rowIndex (columnCount + 1)] }),
      columnCount + 1, none)

/-- The externally-driven dimension load (`useEffect` on
`rowCountAttribute.value` / `columnCountAttribute.value`): the incoming value
replaces the current one only when `0 < v`, `v ≤ 100` and it differs. -/
def dimensionAttributeUpdate (current incoming : Nat) : Nat :=
  if 0 < incoming ∧ incoming ≤ 100 ∧ incoming ≠ current then incoming else current

/-- A raw snapshot cell as read back by the load `useEffect`.  Fields read
through `x || default` conflate an absent field with its falsy value, so they
are total here; `isBlocked` is read through `!== undefined` and is optional. -/
structure RawCell where
  sequenceNumber : String
  checked : Bool
  isBlocked : Option Bool
  isMerged : Bool
  mergeId : String
  isBlank : Bool
  rowSpan : Nat
  colSpan : Nat
  isHidden : Bool
deriving DecidableEq

/-- A raw snapshot row (only its `cells` array is read by the decoder). -/
structure RawRow where
  cells : List RawCell
deriving DecidableEq

/-- The raw snapshot: `{ rows, columns, tableRows }`; `tableRows` is optional
because the decoder tests its presence. -/
structure RawTableData where
  rows : Nat
  columns : Nat
  tableRows : Option (List RawRow)
deriving DecidableEq

/-- The result of a successful snapshot load. -/
structure LoadedTable where
  rows : Nat
  columns : Nat
  tableRows : List TableRow
deriving DecidableEq

/-- The encoding of one cell inside `saveToBackend` (every persisted field
present). -/
def cellToRaw (cell : CellObject) : RawCell where
  sequenceNumber := cell.sequenceNumber
  checked := cell.checked
  isBlocked := some cell.isBlocked
  isMerged := cell.isMerged
  mergeId := cell.mergeId
  isBlank := cell.isBlank
  rowSpan := cell.rowSpan
  colSpan := cell.colSpan
  isHidden := cell.isHidden

/-- `saveToBackend`: the snapshot handed to the persistence attribute
(`metadata.updatedAt`, a wall-clock timestamp never read back, is elided). -/
def saveToBackend (rows : List TableRow) (rowCnt colCnt : Nat) : RawTableData where
  rows := rowCnt
  columns := colCnt
  tableRows := some (rows.map (fun row => { cells := row.cells.map cellToRaw }))

/-- The per-cell validation of the load `useEffect`: indices recomputed from
position, each field defaulted from its falsy value, `isBlocked` falling back
to the decoded `checked` only when absent, selection always reset. -/
def decodeCell (rowIndex colIndex : Nat) (cell : RawCell) : CellObject where
  sequenceNumber := if cell.sequenceNumber == "" then "-" else cell.sequenceNumber
  isBlocked := cell.isBlocked.getD cell.checked
  isMerged := cell.isMerged
  mergeId := cell.mergeId
  isBlank := cell.isBlank
  rowIndex := rowIndex
  columnIndex := colIndex
  checked := cell.checked
  isSelected := false
  rowSpan := if cell.rowSpan == 0 then 1 else cell.rowSpan
  colSpan := if cell.colSpan == 0 then 1 else cell.colSpan
  isHidden := cell.isHidden

/-- The `row.cells.map((cell, cIdx) => ...)` pass of the decoder, with
1-based column indices. -/
def decodeCells (rowIndex : Nat) : Nat → List RawCell → List CellObject
  | _, [] => []
  | colIndex, cell :: rest =>
    decodeCell rowIndex colIndex cell :: decodeCells rowIndex (colIndex + 1) rest

/-- The `tableRows.map((row, idx) => ...)` pass of the decoder, with 1-based
row indices. -/
def decodeRows : Nat → List RawRow → List TableRow
  | _, [] => []
  | rowIndex, row :: rest =>
    { rowIndex := rowIndex, cells := decodeCells rowIndex 1 row.cells }
      :: decodeRows (rowIndex + 1) rest

/-- The load `useEffect`'s validation: accept only when `tableRows` is
present and `rows` and `columns` are positive (there is no upper-bound check
on this path). -/
def decodeTableData (raw : RawTableData) : Option LoadedTable :=
  match raw.tableRows with
  | none => none
  | some trs =>
    if 0 < raw.rows ∧ 0 < raw.columns then
      some { rows := raw.rows, columns := raw.columns, tableRows := decodeRows 1 trs }
    else none

/-- Projection of a cell to the nine persisted fields named by the
round-trip property (`rowIndex`/`columnIndex`/ids are recomputed
positionally by the decoder; `isSelected` is transient). -/
def persistedView (c : CellObject) :
    String × Bool × Bool × Bool × String × Bool × Nat × Nat × Bool :=
  (c.sequenceNumber, c.checked, c.isBlocked, c.isMerged, c.mergeId, c.isBlank,
    c.rowSpan, c.colSpan, c.isHidden)

/-- Projection of a cell to the fields untouched by the dissolve loop. -/
def valueView (c : CellObject) : String × Bool × Bool × Bool :=
  (c.sequenceNumber, c.checked, c.isBlocked, c.isBlank)

/-- A grid with no merged cells: every cell carries the unmerged default
shape (`isMerged = false`, spans 1, visible, empty group id). -/
def unmergedGrid (rows : List TableRow) : Prop :=
  ∀ cell ∈ allCells rows, cell.isMerged = false ∧ cell.isHidden = false ∧
    cell.rowSpan = 1 ∧ cell.colSpan = 1 ∧ cell.mergeId = ""

/-- Whether the selected id `rc` makes `blankSelectedCells` /
`unblankSelectedCells` write to the cell sitting at position `q` with
pre-state `cell`: `rc` must resolve to an existing, visible cell, and `q` is
either `rc` itself or a member of its (non-empty) merge group. -/
def blankTouch (rows : List TableRow) (rc q : Nat × Nat) (cell : CellObject) : Bool :=
  match findCell rows rc.1 rc.2 with
  | none => false
  | some d =>
    !d.isHidden && ((rc.1 == q.1 && rc.2 == q.2) || (d.mergeId != "" && cell.mergeId == d.mergeId))

/-! ### Supporting lemmas -/

theorem foldl_add_length (rows : List TableRow) (a : Nat) :
    rows.foldl (fun s row => s + row.cells.length) a = a + (allCells rows).length := by
  induction rows generalizing a with
  | nil => simp [allCells]
  | cons r rs ih =>
    simp only [List.foldl_cons, ih, allCells, List.flatMap_cons, List.length_append]
    omega

theorem foldl_add_filter_length (p : CellObject → Bool) (rows : List TableRow) (a : Nat) :
    rows.foldl (fun s row => s + (row.cells.filter p).length) a
      = a + ((allCells rows).filter p).length := by
  induction rows generalizing a with
  | nil => simp [allCells]
  | cons r rs ih =>
    simp only [List.foldl_cons, ih, allCells, List.flatMap_cons, List.filter_append,
      List.length_append]
    omega

theorem mem_rectList {a b d e : Nat} (hab : a ≤ b) (hde : d ≤ e) (p : Nat × Nat) :
    p ∈ rectList a b d e ↔ (a ≤ p.1 ∧ p.1 ≤ b ∧ d ≤ p.2 ∧ p.2 ≤ e) := by
  obtain ⟨r, c⟩ := p
  simp only [rectList, List.mem_flatMap, List.mem_map, List.mem_range'_1, Prod.mk.injEq]
  constructor
  · rintro ⟨r0, ⟨hr1, hr2⟩, c0, ⟨hc1, hc2⟩, rfl, rfl⟩
    omega
  · rintro ⟨h1, h2, h3, h4⟩
    exact ⟨r, ⟨h1, by omega⟩, c, ⟨h3, by omega⟩, rfl, rfl⟩

theorem findCell_cons (row : TableRow) (rest : List TableRow) (r c : Nat) :
    findCell (row :: rest) r c =
      if row.rowIndex == r then row.cells.find? (fun cell => cell.columnIndex == c)
      else findCell rest r c := by
  by_cases h : row.rowIndex == r
  · simp [findCell, findRow, List.find?_cons_of_pos _ h, h]
  · simp [findCell, findRow, List.find?_cons_of_neg _ h, h]

theorem updateFirstCell_cons (cell : CellObject) (rest : List CellObject) (b : Nat)
    (f : CellObject → CellObject) :
    updateFirstCell (cell :: rest) b f =
      if cell.columnIndex == b then f cell :: rest
      else cell :: updateFirstCell rest b f := rfl

theorem find?_col_cons_pos (x : CellObject) (l : List CellObject) (c : Nat)
    (h : (x.columnIndex == c) = true) :
    (x :: l).find? (fun y => y.columnIndex == c) = some x :=
  List.find?_cons_of_pos l h

theorem find?_col_cons_neg (x : CellObject) (l : List CellObject) (c : Nat)
    (h : (x.columnIndex == c) = false) :
    (x :: l).find? (fun y => y.columnIndex == c) = l.find? (fun y => y.columnIndex == c) :=
  List.find?_cons_of_neg l (by simp [h])

theorem find?_updateFirstCell_self (cells : List CellObject) (b : Nat)
    (f : CellObject → CellObject) (hf : ∀ x, (f x).columnIndex = x.columnIndex) :
    (updateFirstCell cells b f).find? (fun x => x.columnIndex == b)
      = (cells.find? (fun x => x.columnIndex == b)).map f := by
  induction cells with
  | nil => simp [updateFirstCell]
  | cons cell rest ih =>
    rw [updateFirstCell_cons]
    by_cases h : (cell.columnIndex == b) = true
    · have h2 : ((f cell).columnIndex == b) = true := by
        rw [hf cell]; exact h
      rw [if_pos h, find?_col_cons_pos (f cell) rest b h2, find?_col_cons_pos cell rest b h]
      rfl
    · have h2 : (cell.columnIndex == b) = false := by
        simpa using h
      rw [if_neg h, find?_col_cons_neg cell (updateFirstCell rest b f) b h2,
        find?_col_cons_neg cell rest b h2, ih]

theorem find?_updateFirstCell_other (cells : List CellObject) (b c : Nat)
    (f : CellObject → CellObject) (hf : ∀ x, (f x).columnIndex = x.columnIndex)
    (hne : c ≠ b) :
    (updateFirstCell cells b f).find? (fun x => x.columnIndex == c)
      = cells.find? (fun x => x.columnIndex == c) := by
  induction cells with
  | nil => simp [updateFirstCell]
  | cons cell rest ih =>
    rw [updateFirstCell_cons]
    by_cases h : (cell.columnIndex == b) = true
    · have hcb : cell.columnIndex = b := by simpa using h
      have h2 : ((f cell).columnIndex == c) = false := by
        simp only [hf cell, hcb, beq_eq_false_iff_ne, ne_eq]
        exact fun hbc => hne hbc.symm
      have h3 : (cell.columnIndex == c) = false := by
        simp only [hcb, beq_eq_false_iff_ne, ne_eq]
        exact fun hbc => hne hbc.symm
      rw [if_pos h, find?_col_cons_neg (f cell) rest c h2, find?_col_cons_neg cell rest c h3]
    · by_cases h4 : (cell.columnIndex == c) = true
      · rw [if_neg h, find?_col_cons_pos cell (updateFirstCell rest b f) c h4,
          find?_col_cons_pos cell rest c h4]
      · have h5 : (cell.columnIndex == c) = false := by simpa using h4
        rw [if_neg h, find?_col_cons_neg cell (updateFirstCell rest b f) c h5,
          find?_col_cons_neg cell rest c h5, ih]

theorem find?_map_presIdx (cells : List CellObject) (g : CellObject → CellObject)
    (hg : ∀ x, (g x).columnIndex = x.columnIndex) (c : Nat) :
    (cells.map g).find? (fun x => x.columnIndex == c)
      = (cells.find? (fun x => x.columnIndex == c)).map g := by
  induction cells with
  | nil => simp
  | cons cell rest ih =>
    rw [List.map_cons]
    by_cases h : (cell.columnIndex == c) = true
    · have h2 : ((g cell).columnIndex == c) = true := by rw [hg cell]; exact h
      rw [find?_col_cons_pos (g cell) (rest.map g) c h2, find?_col_cons_pos cell rest c h]
      rfl
    · have h3 : (cell.columnIndex == c) = false := by simpa using h
      have h2 : ((g cell).columnIndex == c) = false := by rw [hg cell]; exact h3
      rw [find?_col_cons_neg (g cell) (rest.map g) c h2, find?_col_cons_neg cell rest c h3, ih]

theorem updateCellAt_cons (row : TableRow) (rest : List TableRow) (r c : Nat)
    (f : CellObject → CellObject) :
    updateCellAt (row :: rest) r c f =
      if row.rowIndex == r then { row with cells := updateFirstCell row.cells c f } :: rest
      else row :: updateCellAt rest r c f := rfl

theorem findCell_updateCellAt_self (rows : List TableRow) (a b : Nat)
    (f : CellObject → CellObject) (hf : ∀ x, (f x).columnIndex = x.columnIndex) :
    findCell (updateCellAt rows a b f) a b = (findCell rows a b).map f := by
  induction rows with
  | nil => rfl
  | cons row rest ih =>
    rw [updateCellAt_cons]
    by_cases hra : (row.rowIndex == a) = true
    · rw [if_pos hra]
      have hL : findCell ({ row with cells := updateFirstCell row.cells b f } :: rest) a b
          = (updateFirstCell row.cells b f).find? (fun x => x.columnIndex == b) := by
        rw [findCell_cons]
        dsimp only
        rw [if_pos hra]
      rw [hL, findCell_cons, if_pos hra]
      exact find?_updateFirstCell_self row.cells b f hf
    · rw [if_neg hra, findCell_cons, findCell_cons, if_neg hra, if_neg hra]
      exact ih

theorem findCell_updateCellAt_other (rows : List TableRow) (a b r c : Nat)
    (f : CellObject → CellObject) (hf : ∀ x, (f x).columnIndex = x.columnIndex)
    (h : ¬(r = a ∧ c = b)) :
    findCell (updateCellAt rows a b f) r c = findCell rows r c := by
  induction rows with
  | nil => rfl
  | cons row rest ih =>
    rw [updateCellAt_cons]
    by_cases hra : (row.rowIndex == a) = true
    · rw [if_pos hra]
      have hra2 : row.rowIndex = a := by simpa using hra
      by_cases hrr : (row.rowIndex == r) = true
      · have hr : r = a := by
          have := (beq_iff_eq.mp hrr)
          rw [← this, hra2]
        have hc : c ≠ b := fun hcb => h ⟨hr, hcb⟩
        have hL : findCell ({ row with cells := updateFirstCell row.cells b f } :: rest) r c
            = (updateFirstCell row.cells b f).find? (fun x => x.columnIndex == c) := by
          rw [findCell_cons]
          dsimp only
          rw [if_pos hrr]
        rw [hL, findCell_cons, if_pos hrr]
        exact find?_updateFirstCell_other row.cells b c f hf hc
      · have hL : findCell ({ row with cells := updateFirstCell row.cells b f } :: rest) r c
            = findCell rest r c := by
          rw [findCell_cons]
          dsimp only
          rw [if_neg hrr]
        rw [hL, findCell_cons, if_neg hrr]
    · rw [if_neg hra]
      by_cases hrr : (row.rowIndex == r) = true
      · rw [findCell_cons, findCell_cons, if_pos hrr, if_pos hrr]
      · rw [findCell_cons, findCell_cons, if_neg hrr, if_neg hrr]
        exact ih

theorem findCell_updateCellAt (rows : List TableRow) (a b r c : Nat)
    (f : CellObject → CellObject) (hf : ∀ x, (f x).columnIndex = x.columnIndex) :
    findCell (updateCellAt rows a b f) r c
      = if r = a ∧ c = b then (findCell rows a b).map f else findCell rows r c := by
  by_cases hcond : r = a ∧ c = b
  · rw [if_pos hcond, hcond.1, hcond.2]
    exact findCell_updateCellAt_self rows a b f hf
  · rw [if_neg hcond]
    exact findCell_updateCellAt_other rows a b r c f hf hcond

theorem findCell_mapCells (rows : List TableRow) (g : CellObject → CellObject)
    (hg : ∀ x, (g x).columnIndex = x.columnIndex) (r c : Nat) :
    findCell (mapCells rows g) r c = (findCell rows r c).map g := by
  induction rows with
  | nil => simp [findCell, findRow, mapCells]
  | cons row rest ih =>
    by_cases h : (row.rowIndex == r) = true
    · simp [mapCells, findCell_cons, h, find?_map_presIdx row.cells g hg c]
    · simp only [Bool.not_eq_true] at h
      simpa [mapCells, findCell_cons, h] using ih

theorem findCell_foldl_updateCellAt (ps : List (Nat × Nat)) (rows : List TableRow)
    (f : Nat × Nat → CellObject → CellObject)
    (hf : ∀ p x, (f p x).columnIndex = x.columnIndex)
    (hidem : ∀ p x, f p (f p x) = f p x) (q : Nat × Nat) :
    findCell (ps.foldl (fun rs rc => updateCellAt rs rc.1 rc.2 (f rc)) rows) q.1 q.2
      = if q ∈ ps then (findCell rows q.1 q.2).map (f q) else findCell rows q.1 q.2 := by
  induction ps generalizing rows with
  | nil => simp
  | cons p0 rest ih =>
    simp only [List.foldl_cons]
    rw [ih (updateCellAt rows p0.1 p0.2 (f p0))]
    by_cases hq : q = p0
    · subst hq
      rw [findCell_updateCellAt rows q.1 q.2 q.1 q.2 (f q) (hf q)]
      simp only [and_self, if_true, List.mem_cons, true_or, if_true, eq_self_iff_true]
      by_cases hmem : q ∈ rest
      · simp only [hmem, if_true, Option.map_map]
        congr 1
        funext x
        exact hidem q x
      · simp [hmem]
    · have hcond : ¬(q.1 = p0.1 ∧ q.2 = p0.2) := by
        rw [← Prod.ext_iff] at *
        exact hq
      rw [findCell_updateCellAt rows p0.1 p0.2 q.1 q.2 (f p0) (hf p0)]
      simp only [hcond, if_false, List.mem_cons, hq, false_or]

theorem findCell_mem (rows : List TableRow) (r c : Nat) {cell : CellObject}
    (h : findCell rows r c = some cell) : cell ∈ allCells rows := by
  induction rows with
  | nil => simp [findCell, findRow] at h
  | cons row rest ih =>
    rw [findCell_cons] at h
    have hsplit : allCells (row :: rest) = row.cells ++ allCells rest := by
      simp [allCells]
    rw [hsplit, List.mem_append]
    by_cases hx : (row.rowIndex == r) = true
    · rw [if_pos hx] at h
      exact Or.inl (List.mem_of_find?_eq_some h)
    · rw [if_neg hx] at h
      exact Or.inr (ih h)

theorem persistedView_decode_cellToRaw (r c : Nat) (cell : CellObject)
    (h1 : cell.sequenceNumber ≠ "") (h2 : cell.rowSpan ≠ 0) (h3 : cell.colSpan ≠ 0) :
    persistedView (decodeCell r c (cellToRaw cell)) = persistedView cell := by
  simp [persistedView, decodeCell, cellToRaw, h1, h2, h3]

theorem decodeCells_map_cellToRaw (r : Nat) (cells : List CellObject) (j : Nat)
    (h : ∀ c ∈ cells, c.sequenceNumber ≠ "" ∧ c.rowSpan ≠ 0 ∧ c.colSpan ≠ 0) :
    (decodeCells r j (cells.map cellToRaw)).map persistedView = cells.map persistedView := by
  induction cells generalizing j with
  | nil => simp [decodeCells]
  | cons c cs ih =>
    have hc := h c (List.mem_cons_self c cs)
    simp [decodeCells, persistedView_decode_cellToRaw r j c hc.1 hc.2.1 hc.2.2,
      ih (j + 1) (fun x hx => h x (List.mem_cons_of_mem _ hx))]

theorem decodeRows_map_cellToRaw (rows : List TableRow) (i : Nat)
    (h : ∀ cell ∈ allCells rows,
      cell.sequenceNumber ≠ "" ∧ cell.rowSpan ≠ 0 ∧ cell.colSpan ≠ 0) :
    (decodeRows i (rows.map (fun row => { cells := row.cells.map cellToRaw }))).map
        (fun row => row.cells.map persistedView)
      = rows.map (fun row => row.cells.map persistedView) := by
  induction rows generalizing i with
  | nil => simp [decodeRows]
  | cons row rs ih =>
    have hsplit : allCells (row :: rs) = row.cells ++ allCells rs := by
      simp [allCells]
    have hrow : ∀ c ∈ row.cells, c.sequenceNumber ≠ "" ∧ c.rowSpan ≠ 0 ∧ c.colSpan ≠ 0 :=
      fun c hc => h c (hsplit ▸ List.mem_append_left _ hc)
    have hrest : ∀ cell ∈ allCells rs,
        cell.sequenceNumber ≠ "" ∧ cell.rowSpan ≠ 0 ∧ cell.colSpan ≠ 0 :=
      fun c hc => h c (hsplit ▸ List.mem_append_right _ hc)
    simp [decodeRows, decodeCells_map_cellToRaw i row.cells 1 hrow, ih (i + 1) hrest]

/-! ### Claim theorems -/

/-- C6. After every mutation the recomputed statistics satisfy: `total` is
the count of all cells, `blocked` counts cells with `isBlocked`, `merged`
counts cells with `isMerged && !isHidden` (one per visible group anchor, not
per member), and `blank` counts cells with `isBlank && !isHidden`. -/
theorem updateCellStatistics_counts (rows : List TableRow) :
    (updateCellStatistics rows).total = (allCells rows).length ∧
    (updateCellStatistics rows).blocked = (allCells rows).countP (fun c => c.isBlocked) ∧
    (updateCellStatistics rows).merged
      = (allCells rows).countP (fun c => c.isMerged && !c.isHidden) ∧
    (updateCellStatistics rows).blank
      = (allCells rows).countP (fun c => c.isBlank && !c.isHidden) := by
  refine ⟨?_, ?_, ?_, ?_⟩ <;>
    simp [updateCellStatistics, foldl_add_length, foldl_add_filter_length,
      List.countP_eq_length_filter]

/-- C10. Invoking merge while fewer than 2 cells are selected is a silent
no-op: the whole state (grid, selection, selection mode) is unchanged and no
alert message is produced. -/
theorem mergeCells_lt_two_silent_noop (st : TableviewState)
    (h : st.selectedCells.length < 2) : mergeCells st = (st, none) := by
  simp [mergeCells, h]

/-- C10 witness: a single selected cell on some state. -/
theorem mergeCells_lt_two_silent_noop_witness :
    mergeCells ⟨[], [(1, 1)], false⟩ = (⟨[], [(1, 1)], false⟩, none) :=
  mergeCells_lt_two_silent_noop ⟨[], [(1, 1)], false⟩ (by decide)

/-- C3. A selection of at least 2 cells whose size differs from the cell
count of its bounding rectangle makes merge reject with the user-visible
alert, leaving the grid, the selection set and the selection mode all
unchanged. -/
theorem mergeCells_nonrectangular_rejected (st : TableviewState)
    (h2 : 2 ≤ st.selectedCells.length)
    (hne : st.selectedCells.length ≠
      (listMax (st.selectedCells.map Prod.fst) - listMin (st.selectedCells.map Prod.fst) + 1)
        * (listMax (st.selectedCells.map Prod.snd) - listMin (st.selectedCells.map Prod.snd) + 1)) :
    mergeCells st = (st, some "Please select a rectangular area to merge") := by
  have h1 : ¬ st.selectedCells.length < 2 := Nat.not_lt.mpr h2
  simp [mergeCells, h1, hne]

/-- C3 witness: the L-shaped selection `{(1,1),(1,2),(2,2)}` (3 cells,
bounding box 4 cells) is rejected without mutation. -/
theorem mergeCells_nonrectangular_rejected_witness :
    mergeCells ⟨createNewTable 2 2, [(1, 1), (1, 2), (2, 2)], true⟩
      = (⟨createNewTable 2 2, [(1, 1), (1, 2), (2, 2)], true⟩,
          some "Please select a rectangular area to merge") :=
  mergeCells_nonrectangular_rejected ⟨createNewTable 2 2, [(1, 1), (1, 2), (2, 2)], true⟩
    (by decide) (by decide)

/-- C1 (amended). Decoding the encoded snapshot of a grid reproduces its
rows, columns, and every cell's persisted fields (`sequenceNumber`,
`checked`, `isBlocked`, `isMerged`, `mergeId`, `isBlank`, `rowSpan`,
`colSpan`, `isHidden`) exactly, with transient selection state excluded —
provided no cell's `sequenceNumber` is the empty string and the spans are
non-zero (the decoder reads those fields through `x || default`, so an empty
string comes back as `"-"`). -/
theorem decode_encode_roundtrip (rows : List TableRow) (rowCnt colCnt : Nat)
    (hr : 0 < rowCnt) (hc : 0 < colCnt)
    (hcells : ∀ cell ∈ allCells rows,
      cell.sequenceNumber ≠ "" ∧ cell.rowSpan ≠ 0 ∧ cell.colSpan ≠ 0) :
    (decodeTableData (saveToBackend rows rowCnt colCnt)).map
        (fun lt =>
          (lt.rows, lt.columns, lt.tableRows.map (fun row => row.cells.map persistedView)))
      = some (rowCnt, colCnt, rows.map (fun row => row.cells.map persistedView)) := by
  simp [decodeTableData, saveToBackend, hr, hc, decodeRows_map_cellToRaw rows 1 hcells]

/-- C1 witness: a freshly generated 2×2 grid round-trips exactly. -/
theorem decode_encode_roundtrip_witness :
    (decodeTableData (saveToBackend (createNewTable 2 2) 2 2)).map
        (fun lt =>
          (lt.rows, lt.columns, lt.tableRows.map (fun row => row.cells.map persistedView)))
      = some (2, 2, (createNewTable 2 2).map (fun row => row.cells.map persistedView)) :=
  decode_encode_roundtrip (createNewTable 2 2) 2 2 (by decide) (by decide) (by decide)

/-- C1 counterexample: for a grid holding a cell whose `sequenceNumber` is
the empty string, `decode(encode(G))` yields `"-"` for that cell, so the
round trip does not reproduce every persisted field exactly. -/
theorem decode_encode_not_exact_on_empty_value :
    (decodeTableData (saveToBackend
          [{ rowIndex := 1, cells := [{ defaultCell 1 1 with sequenceNumber := "" }] }] 1 1)).map
        (fun lt => lt.tableRows.map (fun row => row.cells.map CellObject.sequenceNumber))
      = some [["-"]]
    ∧ ([{ rowIndex := 1, cells := [{ defaultCell 1 1 with sequenceNumber := "" }] }] :
        List TableRow).map (fun row => row.cells.map CellObject.sequenceNumber)
      = [[""]] := by
  exact ⟨rfl, rfl⟩

theorem findCell_update_then_group (rows : List TableRow) (r c : Nat) (target : CellObject)
    (htarget : findCell rows r c = some target) (w : CellObject → CellObject)
    (hw : ∀ x, (w x).columnIndex = x.columnIndex)
    (hwid : ∀ x, (w x).mergeId = x.mergeId)
    (hwidem : ∀ x, w (w x) = w x) (q : Nat × Nat) :
    findCell
        (if target.mergeId != "" then
          mapCells (updateCellAt rows r c w)
            (fun cell => if cell.mergeId == target.mergeId then w cell else cell)
        else updateCellAt rows r c w) q.1 q.2
      = (findCell rows q.1 q.2).map (fun cell =>
          if (q.1 = r ∧ q.2 = c) ∨ (target.mergeId ≠ "" ∧ cell.mergeId = target.mergeId) then
            w cell
          else cell) := by
  by_cases hgid : (target.mergeId != "") = true
  · rw [if_pos hgid]
    have hmg : target.mergeId ≠ "" := by simpa using hgid
    have hg : ∀ x, ((fun cell =>
        if cell.mergeId == target.mergeId then w cell else cell) x).columnIndex
          = x.columnIndex := by
      intro x
      by_cases hx : (x.mergeId == target.mergeId) = true <;> simp [hx, hw]
    rw [findCell_mapCells _ _ hg, findCell_updateCellAt rows r c q.1 q.2 w hw]
    by_cases hq : q.1 = r ∧ q.2 = c
    · rw [if_pos hq, hq.1, hq.2, htarget]
      have hcond : ((w target).mergeId == target.mergeId) = true := by simp [hwid]
      simp [hcond, hwidem, hq]
    · rw [if_neg hq]
      cases hfind : findCell rows q.1 q.2 with
      | none => rfl
      | some cell0 =>
        by_cases hx : (cell0.mergeId == target.mergeId) = true
        · have hx2 : cell0.mergeId = target.mergeId := by simpa using hx
          simp [hx, hq, hmg, hx2]
        · have hx2 : ¬ cell0.mergeId = target.mergeId := by simpa using hx
          simp [hx, hq, hx2]
  · rw [if_neg hgid]
    have hmg : target.mergeId = "" := by simpa using hgid
    rw [findCell_updateCellAt rows r c q.1 q.2 w hw]
    by_cases hq : q.1 = r ∧ q.2 = c
    · rw [if_pos hq, hq.1, hq.2, htarget]
      simp [hq]
    · rw [if_neg hq]
      cases hfind : findCell rows q.1 q.2 with
      | none => rfl
      | some cell0 => simp [hq, hmg]

theorem foldl_min_le_init (l : List Nat) (a : Nat) : l.foldl Nat.min a ≤ a := by
  induction l generalizing a with
  | nil => exact Nat.le_refl a
  | cons y l ih =>
    exact Nat.le_trans (ih (Nat.min a y)) (Nat.min_le_left a y)

theorem foldl_min_le_mem (l : List Nat) (a x : Nat) (hx : x ∈ l) : l.foldl Nat.min a ≤ x := by
  induction l generalizing a with
  | nil => cases hx
  | cons y l ih =>
    rcases List.mem_cons.mp hx with rfl | hx2
    · exact Nat.le_trans (foldl_min_le_init l (Nat.min a x)) (Nat.min_le_right a x)
    · exact ih (Nat.min a y) hx2

theorem foldl_min_mem (l : List Nat) (a : Nat) :
    l.foldl Nat.min a = a ∨ l.foldl Nat.min a ∈ l := by
  induction l generalizing a with
  | nil => exact Or.inl rfl
  | cons y l ih =>
    rcases ih (Nat.min a y) with h | h
    · rcases Nat.le_total a y with hle | hle
      · exact Or.inl (by rw [List.foldl_cons, h]; exact Nat.min_eq_left hle)
      · refine Or.inr ?_
        rw [List.foldl_cons, h]
        have h2 : Nat.min a y = y := Nat.min_eq_right hle
        rw [h2]
        exact List.mem_cons_self y l
    · exact Or.inr (List.mem_cons_of_mem y h)

theorem listMin_le (l : List Nat) (x : Nat) (hx : x ∈ l) : listMin l ≤ x := by
  cases l with
  | nil => cases hx
  | cons y l =>
    rcases List.mem_cons.mp hx with rfl | hx2
    · exact foldl_min_le_init l x
    · exact foldl_min_le_mem l y x hx2

theorem listMin_mem (l : List Nat) (h : l ≠ []) : listMin l ∈ l := by
  cases l with
  | nil => exact absurd rfl h
  | cons y l =>
    rcases foldl_min_mem l y with h2 | h2
    · rw [listMin, h2]; exact List.mem_cons_self y l
    · exact List.mem_cons_of_mem y h2

theorem foldl_max_init_le (l : List Nat) (a : Nat) : a ≤ l.foldl Nat.max a := by
  induction l generalizing a with
  | nil => exact Nat.le_refl a
  | cons y l ih =>
    exact Nat.le_trans (Nat.le_max_left a y) (ih (Nat.max a y))

theorem foldl_max_mem_le (l : List Nat) (a x : Nat) (hx : x ∈ l) : x ≤ l.foldl Nat.max a := by
  induction l generalizing a with
  | nil => cases hx
  | cons y l ih =>
    rcases List.mem_cons.mp hx with rfl | hx2
    · exact Nat.le_trans (Nat.le_max_right a x) (foldl_max_init_le l (Nat.max a x))
    · exact ih (Nat.max a y) hx2

theorem foldl_max_mem (l : List Nat) (a : Nat) :
    l.foldl Nat.max a = a ∨ l.foldl Nat.max a ∈ l := by
  induction l generalizing a with
  | nil => exact Or.inl rfl
  | cons y l ih =>
    rcases ih (Nat.max a y) with h | h
    · rcases Nat.le_total a y with hle | hle
      · refine Or.inr ?_
        rw [List.foldl_cons, h]
        have h2 : Nat.max a y = y := Nat.max_eq_right hle
        rw [h2]
        exact List.mem_cons_self y l
      · exact Or.inl (by rw [List.foldl_cons, h]; exact Nat.max_eq_left hle)
    · exact Or.inr (List.mem_cons_of_mem y h)

theorem listMax_le_of_mem (l : List Nat) (x : Nat) (hx : x ∈ l) : x ≤ listMax l := by
  cases l with
  | nil => cases hx
  | cons y l =>
    rcases List.mem_cons.mp hx with rfl | hx2
    · exact foldl_max_init_le l x
    · exact foldl_max_mem_le l y x hx2

theorem listMax_mem (l : List Nat) (h : l ≠ []) : listMax l ∈ l := by
  cases l with
  | nil => exact absurd rfl h
  | cons y l =>
    rcases foldl_max_mem l y with h2 | h2
    · rw [listMax, h2]; exact List.mem_cons_self y l
    · exact List.mem_cons_of_mem y h2

theorem length_flatMap_const {α β : Type} (l : List α) (f : α → List β) (m : Nat)
    (h : ∀ x ∈ l, (f x).length = m) : (l.flatMap f).length = l.length * m := by
  induction l with
  | nil => simp
  | cons y l ih =>
    rw [List.flatMap_cons, List.length_append, h y (List.mem_cons_self y l),
      ih (fun x hx => h x (List.mem_cons_of_mem y hx)), List.length_cons]
    ring

theorem rectList_length (a b d e : Nat) :
    (rectList a b d e).length = (b - a + 1) * (e - d + 1) := by
  rw [rectList, length_flatMap_const _ _ (e - d + 1)
      (fun x _ => by rw [List.length_map, List.length_range']),
    List.length_range']

/-- The bounding-rectangle coordinates computed by `mergeCells` from any
selection that is (as a set) exactly the rectangle `[r1,r2] × [c1,c2]`. -/
theorem sel_bounds_of_perm_rect (sel : List (Nat × Nat)) (r1 r2 c1 c2 : Nat)
    (hr : r1 ≤ r2) (hc : c1 ≤ c2) (hperm : sel.Perm (rectList r1 r2 c1 c2)) :
    listMin (sel.map Prod.fst) = r1 ∧ listMax (sel.map Prod.fst) = r2 ∧
    listMin (sel.map Prod.snd) = c1 ∧ listMax (sel.map Prod.snd) = c2 := by
  have hmem_iff : ∀ p : Nat × Nat, p ∈ sel ↔ (r1 ≤ p.1 ∧ p.1 ≤ r2 ∧ c1 ≤ p.2 ∧ p.2 ≤ c2) :=
    fun p => hperm.mem_iff.trans (mem_rectList hr hc p)
  have htl : (r1, c1) ∈ sel := (hmem_iff (r1, c1)).mpr
    ⟨Nat.le_refl r1, hr, Nat.le_refl c1, hc⟩
  have hbr : (r2, c2) ∈ sel := (hmem_iff (r2, c2)).mpr
    ⟨hr, Nat.le_refl r2, hc, Nat.le_refl c2⟩
  have hne1 : sel.map Prod.fst ≠ [] := by
    intro hx
    rw [List.map_eq_nil_iff] at hx
    rw [hx] at htl
    cases htl
  have hne2 : sel.map Prod.snd ≠ [] := by
    intro hx
    rw [List.map_eq_nil_iff] at hx
    rw [hx] at htl
    cases htl
  refine ⟨?_, ?_, ?_, ?_⟩
  · refine Nat.le_antisymm
      (listMin_le _ r1 (List.mem_map_of_mem Prod.fst htl)) ?_
    obtain ⟨p, hp, hpe⟩ := List.mem_map.mp (listMin_mem _ hne1)
    rw [← hpe]
    exact ((hmem_iff p).mp hp).1
  · refine Nat.le_antisymm ?_
      (listMax_le_of_mem _ r2 (List.mem_map_of_mem Prod.fst hbr))
    obtain ⟨p, hp, hpe⟩ := List.mem_map.mp (listMax_mem _ hne1)
    rw [← hpe]
    exact ((hmem_iff p).mp hp).2.1
  · refine Nat.le_antisymm
      (listMin_le _ c1 (List.mem_map_of_mem Prod.snd htl)) ?_
    obtain ⟨p, hp, hpe⟩ := List.mem_map.mp (listMin_mem _ hne2)
    rw [← hpe]
    exact ((hmem_iff p).mp hp).2.2.1
  · refine Nat.le_antisymm ?_
      (listMax_le_of_mem _ c2 (List.mem_map_of_mem Prod.snd hbr))
    obtain ⟨p, hp, hpe⟩ := List.mem_map.mp (listMax_mem _ hne2)
    rw [← hpe]
    exact ((hmem_iff p).mp hp).2.2.2

theorem dissolveAt_unmerged (rows : List TableRow) (h : unmergedGrid rows) (rc : Nat × Nat) :
    dissolveAt rows rc = rows := by
  unfold dissolveAt
  cases hd : findCell rows rc.1 rc.2 with
  | none => rfl
  | some cell =>
    dsimp only
    have hm : cell.isMerged = false := (h cell (findCell_mem rows rc.1 rc.2 hd)).1
    rw [hm]
    simp

theorem foldl_dissolveAt_unmerged (ps : List (Nat × Nat)) (rows : List TableRow)
    (h : unmergedGrid rows) : ps.foldl dissolveAt rows = rows := by
  induction ps with
  | nil => rfl
  | cons p0 rest ih => rw [List.foldl_cons, dissolveAt_unmerged rows h p0, ih]

theorem findCell_dissolveAt_valueView (rows : List TableRow) (rc : Nat × Nat) (r c : Nat) :
    (findCell (dissolveAt rows rc) r c).map valueView = (findCell rows r c).map valueView := by
  unfold dissolveAt
  cases hd : findCell rows rc.1 rc.2 with
  | none => rfl
  | some cell =>
    dsimp only
    by_cases hm : (cell.isMerged && cell.mergeId != "") = true
    · rw [if_pos hm]
      have hg : ∀ x : CellObject, ((fun c2 : CellObject =>
          if c2.mergeId == cell.mergeId then
            { c2 with
              isMerged := false
              rowSpan := 1
              colSpan := 1
              isHidden := false
              mergeId := "" }
          else c2) x).columnIndex = x.columnIndex := by
        intro x
        by_cases hx : (x.mergeId == cell.mergeId) = true <;> simp [hx]
      rw [findCell_mapCells _ _ hg]
      cases ho : findCell rows r c with
      | none => rfl
      | some x =>
        simp only [Option.map_some']
        by_cases hx : (x.mergeId == cell.mergeId) = true <;> simp [hx, valueView]
    · rw [if_neg hm]

theorem findCell_foldl_dissolveAt_valueView (ps : List (Nat × Nat)) (rows : List TableRow)
    (r c : Nat) :
    (findCell (ps.foldl dissolveAt rows) r c).map valueView
      = (findCell rows r c).map valueView := by
  induction ps generalizing rows with
  | nil => rfl
  | cons p0 rest ih =>
    rw [List.foldl_cons, ih (dissolveAt rows p0), findCell_dissolveAt_valueView]

theorem mergeCells_eval (st : TableviewState) (r1 r2 c1 c2 : Nat)
    (hr : r1 ≤ r2) (hc : c1 ≤ c2) (harea : 2 ≤ (r2 - r1 + 1) * (c2 - c1 + 1))
    (hperm : st.selectedCells.Perm (rectList r1 r2 c1 c2)) :
    mergeCells st =
      ({ tableRows :=
          match findCell ((rectList r1 r2 c1 c2).foldl dissolveAt st.tableRows) r1 c1 with
          | none => st.tableRows
          | some tl =>
            (rectList r1 r2 c1 c2).foldl
              (fun rs rc => updateCellAt rs rc.1 rc.2
                (mergeWrite tl (createMergeId r1 c1 r2 c2) r1 c1 r2 c2 rc))
              ((rectList r1 r2 c1 c2).foldl dissolveAt st.tableRows)
         selectedCells := [(r1, c1)]
         isSelectionMode := st.isSelectionMode }, none) := by
  obtain ⟨hb1, hb2, hb3, hb4⟩ := sel_bounds_of_perm_rect st.selectedCells r1 r2 c1 c2 hr hc hperm
  have hlen : st.selectedCells.length = (r2 - r1 + 1) * (c2 - c1 + 1) := by
    rw [hperm.length_eq, rectList_length]
  have h2 : ¬ (r2 - r1 + 1) * (c2 - c1 + 1) < 2 := by omega
  simp only [mergeCells, hb1, hb2, hb3, hb4, hlen]
  rw [if_neg h2, if_neg (show ¬ (r2 - r1 + 1) * (c2 - c1 + 1)
      ≠ (r2 - r1 + 1) * (c2 - c1 + 1) from fun hx => hx rfl)]

theorem findCell_setBlankStep (b : Bool) (rows : List TableRow) (rc q : Nat × Nat) :
    findCell (setBlankStep b rows rc) q.1 q.2
      = (findCell rows q.1 q.2).map (fun cell =>
          if blankTouch rows rc q cell then { cell with isBlank := b } else cell) := by
  unfold setBlankStep
  cases hd : findCell rows rc.1 rc.2 with
  | none =>
    have hbt : ∀ cell, blankTouch rows rc q cell = false := by
      intro cell
      unfold blankTouch
      rw [hd]
    cases hq : findCell rows q.1 q.2 <;> simp [hbt, hq]
  | some d =>
    dsimp only
    by_cases hh : d.isHidden = true
    · rw [if_pos hh]
      have hbt : ∀ cell, blankTouch rows rc q cell = false := by
        intro cell
        unfold blankTouch
        rw [hd]
        simp [hh]
      cases hq : findCell rows q.1 q.2 <;> simp [hbt, hq]
    · rw [if_neg hh]
      have hh2 : d.isHidden = false := by simpa using hh
      have hbt : ∀ cell, blankTouch rows rc q cell
          = ((rc.1 == q.1 && rc.2 == q.2) || (d.mergeId != "" && cell.mergeId == d.mergeId)) := by
        intro cell
        unfold blankTouch
        rw [hd]
        simp [hh2]
      have hw : ∀ x : CellObject, ({ x with isBlank := b } : CellObject).columnIndex
          = x.columnIndex := fun x => rfl
      by_cases hgid : (d.mergeId != "") = true
      · rw [if_pos hgid]
        have hg : ∀ x : CellObject, ((fun c : CellObject =>
            if c.mergeId == d.mergeId then { c with isBlank := b } else c) x).columnIndex
              = x.columnIndex := by
          intro x
          by_cases hx : (x.mergeId == d.mergeId) = true <;> simp [hx]
        rw [findCell_mapCells _ _ hg,
          findCell_updateCellAt rows rc.1 rc.2 q.1 q.2 _ hw]
        by_cases hq : q.1 = rc.1 ∧ q.2 = rc.2
        · rw [if_pos hq, hq.1, hq.2, hd]
          have hqb : (rc.1 == q.1 && rc.2 == q.2) = true := by
            simp [hq.1, hq.2]
          simp [hbt, hqb]
        · rw [if_neg hq]
          cases hq2 : findCell rows q.1 q.2 with
          | none => rfl
          | some cell0 =>
            have hqb : (rc.1 == q.1 && rc.2 == q.2) = false := by
              rcases Decidable.not_and_iff_or_not.mp hq with h1 | h1 <;>
                simp only [Bool.and_eq_false_iff, beq_eq_false_iff_ne, ne_eq] <;>
                [exact Or.inl (fun hx => h1 hx.symm); exact Or.inr (fun hx => h1 hx.symm)]
            by_cases hx : (cell0.mergeId == d.mergeId) = true
            · simp [hbt, hqb, hx, hgid]
            · have hx2 : (cell0.mergeId == d.mergeId) = false := by simpa using hx
              have hx3 : ¬ cell0.mergeId = d.mergeId := by simpa using hx
              simp [hbt, hqb, hx2, hx3]
      · rw [if_neg hgid]
        have hgid2 : (d.mergeId != "") = false := by simpa using hgid
        rw [findCell_updateCellAt rows rc.1 rc.2 q.1 q.2 _ hw]
        by_cases hq : q.1 = rc.1 ∧ q.2 = rc.2
        · rw [if_pos hq, hq.1, hq.2, hd]
          have hqb : (rc.1 == q.1 && rc.2 == q.2) = true := by
            simp [hq.1, hq.2]
          simp [hbt, hqb]
        · rw [if_neg hq]
          cases hq2 : findCell rows q.1 q.2 with
          | none => rfl
          | some cell0 =>
            have hqb : (rc.1 == q.1 && rc.2 == q.2) = false := by
              rcases Decidable.not_and_iff_or_not.mp hq with h1 | h1 <;>
                simp only [Bool.and_eq_false_iff, beq_eq_false_iff_ne, ne_eq] <;>
                [exact Or.inl (fun hx => h1 hx.symm); exact Or.inr (fun hx => h1 hx.symm)]
            simp [hbt, hqb, hgid2]

theorem blankTouch_setBlankStep (b : Bool) (rows : List TableRow) (rc0 rc q : Nat × Nat)
    (cell cell2 : CellObject) (hm : cell2.mergeId = cell.mergeId) :
    blankTouch (setBlankStep b rows rc0) rc q cell2 = blankTouch rows rc q cell := by
  have hL := findCell_setBlankStep b rows rc0 rc
  unfold blankTouch
  rw [hL]
  cases hd : findCell rows rc.1 rc.2 with
  | none => rfl
  | some d =>
    simp only [Option.map_some']
    by_cases hcond : blankTouch rows rc0 rc d = true <;> simp [hcond, hm]

theorem findCell_foldl_setBlankStep (b : Bool) (sel : List (Nat × Nat))
    (rows : List TableRow) (q : Nat × Nat) :
    findCell (sel.foldl (setBlankStep b) rows) q.1 q.2
      = (findCell rows q.1 q.2).map (fun cell =>
          if sel.any (fun rc => blankTouch rows rc q cell) then { cell with isBlank := b }
          else cell) := by
  induction sel generalizing rows with
  | nil =>
    cases hq : findCell rows q.1 q.2 <;> simp [hq]
  | cons rc0 rest ih =>
    simp only [List.foldl_cons]
    rw [ih (setBlankStep b rows rc0), findCell_setBlankStep b rows rc0 q]
    cases hd : findCell rows q.1 q.2 with
    | none => rfl
    | some cell =>
      simp only [Option.map_some']
      have hstep : ∀ rc : Nat × Nat, blankTouch (setBlankStep b rows rc0) rc q
          (if blankTouch rows rc0 q cell then { cell with isBlank := b } else cell)
            = blankTouch rows rc q cell := by
        intro rc
        apply blankTouch_setBlankStep
        by_cases h0 : blankTouch rows rc0 q cell = true <;> simp [h0]
      simp only [hstep]
      by_cases t0 : blankTouch rows rc0 q cell = true <;>
        by_cases trest : rest.any (fun rc => blankTouch rows rc q cell) = true <;>
          simp [t0, trest, List.any_cons]

/-- C5 (amended). Dimension bounds `1 ≤ rows, columns ≤ 100` are enforced at
generate/resize (`applyDimensions`), add row, add column, and the
externally-driven dimension load; a resize request to 101 rows or to 0
columns is rejected with an alert and the grid state is untouched.  The
snapshot-decode entry point, however, only enforces positivity (no upper
bound — see the counterexample). -/
theorem dimension_bounds_entry_points :
    (∀ st : TableviewState, ∀ rowCount columnCount : Nat,
        ((applyDimensions st rowCount columnCount).2 = none ↔
          (1 ≤ rowCount ∧ rowCount ≤ 100 ∧ 1 ≤ columnCount ∧ columnCount ≤ 100))) ∧
    (∀ st : TableviewState, ∀ rowCount columnCount : Nat,
        (applyDimensions st rowCount columnCount).2 ≠ none →
          (applyDimensions st rowCount columnCount).1 = st) ∧
    (∀ rows : List TableRow, ∀ rowCount columnCount : Nat,
        ((addRow rows rowCount columnCount).2.2 = none ↔ rowCount + 1 ≤ 100) ∧
        ((addRow rows rowCount columnCount).2.2 ≠ none →
          (addRow rows rowCount columnCount).1 = rows ∧
            (addRow rows rowCount columnCount).2.1 = rowCount) ∧
        ((addRow rows rowCount columnCount).2.2 = none →
          (addRow rows rowCount columnCount).2.1 = rowCount + 1 ∧
            1 ≤ rowCount + 1 ∧ rowCount + 1 ≤ 100)) ∧
    (∀ rows : List TableRow, ∀ rowCount columnCount : Nat,
        ((addColumn rows rowCount columnCount).2.2 = none ↔ columnCount + 1 ≤ 100) ∧
        ((addColumn rows rowCount columnCount).2.2 ≠ none →
          (addColumn rows rowCount columnCount).1 = rows ∧
            (addColumn rows rowCount columnCount).2.1 = columnCount) ∧
        ((addColumn rows rowCount columnCount).2.2 = none →
          (addColumn rows rowCount columnCount).2.1 = columnCount + 1 ∧
            1 ≤ columnCount + 1 ∧ columnCount + 1 ≤ 100)) ∧
    (∀ current incoming : Nat,
        dimensionAttributeUpdate current incoming = current ∨
          (1 ≤ dimensionAttributeUpdate current incoming ∧
            dimensionAttributeUpdate current incoming ≤ 100)) ∧
    (∀ raw : RawTableData, ∀ lt : LoadedTable,
        decodeTableData raw = some lt → 1 ≤ lt.rows ∧ 1 ≤ lt.columns) := by
  have applyDimensions_eq : ∀ (st : TableviewState) (rowCount columnCount : Nat),
      applyDimensions st rowCount columnCount =
        if rowCount = 0 ∨ columnCount = 0 then
          (st, some "Rows and columns must be positive numbers")
        else if 100 < rowCount ∨ 100 < columnCount then
          (st, some "Maximum 100 rows and 100 columns")
        else
          ({ tableRows := createNewTable rowCount columnCount, selectedCells := [],
             isSelectionMode := false }, none) := by
    intro st rowCount columnCount
    simp [applyDimensions, Bool.or_eq_true, beq_iff_eq, decide_eq_true_eq]
  refine ⟨?_, ?_, ?_, ?_, ?_, ?_⟩
  · intro st rowCount columnCount
    rw [applyDimensions_eq]
    split_ifs with h1 h2 <;> simp <;> omega
  · intro st rowCount columnCount h
    rw [applyDimensions_eq] at h ⊢
    split_ifs at h ⊢ with h1 h2
    · rfl
    · rfl
    · simp at h
  · intro rows rowCount columnCount
    by_cases h : 100 < rowCount + 1
    · have h2 : ¬ rowCount + 1 ≤ 100 := by omega
      simp [addRow, h, h2]
    · have h2 : rowCount + 1 ≤ 100 := by omega
      simp [addRow, h, h2]
  · intro rows rowCount columnCount
    by_cases h : 100 < columnCount + 1
    · have h2 : ¬ columnCount + 1 ≤ 100 := by omega
      simp [addColumn, h, h2]
    · have h2 : columnCount + 1 ≤ 100 := by omega
      simp [addColumn, h, h2]
  · intro current incoming
    simp only [dimensionAttributeUpdate]
    split
    · rename_i h
      exact Or.inr ⟨h.1, h.2.1⟩
    · exact Or.inl rfl
  · intro raw lt h
    simp only [decodeTableData] at h
    split at h
    · exact absurd h (by simp)
    · split at h
      · rename_i hpos
        cases h
        exact ⟨hpos.1, hpos.2⟩
      · exact absurd h (by simp)

/-- C5 witness: resizing to 101 rows, or to 0 columns, is rejected and the
grid keeps its prior state. -/
theorem dimension_bounds_entry_points_witness :
    (applyDimensions ⟨createNewTable 1 1, [], false⟩ 101 5).1
        = ⟨createNewTable 1 1, [], false⟩ ∧
    (applyDimensions ⟨createNewTable 1 1, [], false⟩ 5 0).1
        = ⟨createNewTable 1 1, [], false⟩ :=
  ⟨dimension_bounds_entry_points.2.1 ⟨createNewTable 1 1, [], false⟩ 101 5 (by decide),
    dimension_bounds_entry_points.2.1 ⟨createNewTable 1 1, [], false⟩ 5 0 (by decide)⟩

/-- C5 counterexample: the snapshot-decode entry point accepts a snapshot
declaring 101 rows (it checks only positivity), violating the claimed
`rows ≤ 100` bound at that entry point. -/
theorem decode_accepts_rows_above_100 :
    (decodeTableData { rows := 101, columns := 1, tableRows := some [{ cells := [] }] }).map
        LoadedTable.rows = some 101
    ∧ 100 < 101 :=
  ⟨rfl, by decide⟩

/-- C4. Toggling a cell's checkbox sets `checked`, `isBlocked` and
`isSelected` all to the new checked value, mirrored to every member of its
merge group (cells sharing its non-empty `mergeId`); editing the cell's text
value changes only `sequenceNumber` (propagated across the group) and in
particular never changes `isBlocked` on the edited cell or any other cell. -/
theorem checkbox_drives_blocked_value_edit_does_not (rows : List TableRow) (r c : Nat)
    (target : CellObject) (htarget : findCell rows r c = some target) :
    (∀ q : Nat × Nat, findCell (handleCheckboxChange rows r c) q.1 q.2
        = (findCell rows q.1 q.2).map (fun cell =>
            if (q.1 = r ∧ q.2 = c) ∨ (target.mergeId ≠ "" ∧ cell.mergeId = target.mergeId) then
              { cell with
                checked := !target.checked
                isBlocked := !target.checked
                isSelected := !target.checked }
            else cell)) ∧
    (∀ v : String, ∀ q : Nat × Nat, findCell (handleCellValueChange rows r c v) q.1 q.2
        = (findCell rows q.1 q.2).map (fun cell =>
            if (q.1 = r ∧ q.2 = c) ∨ (target.mergeId ≠ "" ∧ cell.mergeId = target.mergeId) then
              { cell with sequenceNumber := v }
            else cell)) ∧
    (∀ v : String, ∀ q : Nat × Nat,
        (findCell (handleCellValueChange rows r c v) q.1 q.2).map CellObject.isBlocked
          = (findCell rows q.1 q.2).map CellObject.isBlocked) := by
  have hchk := fun q => findCell_update_then_group rows r c target htarget
    (fun cell =>
      { cell with
        checked := !target.checked
        isBlocked := !target.checked
        isSelected := !target.checked })
    (fun x => rfl) (fun x => rfl) (fun x => rfl) q
  have hval := fun (v : String) q => findCell_update_then_group rows r c target htarget
    (fun cell => { cell with sequenceNumber := v })
    (fun x => rfl) (fun x => rfl) (fun x => rfl) q
  refine ⟨?_, ?_, ?_⟩
  · intro q
    have h := hchk q
    simpa [handleCheckboxChange, htarget] using h
  · intro v q
    have h := hval v q
    simpa [handleCellValueChange, htarget] using h
  · intro v q
    have h := hval v q
    have h2 : findCell (handleCellValueChange rows r c v) q.1 q.2
        = (findCell rows q.1 q.2).map (fun cell =>
            if (q.1 = r ∧ q.2 = c) ∨ (target.mergeId ≠ "" ∧ cell.mergeId = target.mergeId) then
              { cell with sequenceNumber := v }
            else cell) := by
      simpa [handleCellValueChange, htarget] using h
    rw [h2]
    cases hfind : findCell rows q.1 q.2 with
    | none => rfl
    | some cell0 =>
      by_cases hcond : (q.1 = r ∧ q.2 = c) ∨
          (target.mergeId ≠ "" ∧ cell0.mergeId = target.mergeId)
      · simp [hcond]
      · simp [hcond]

/-- C4 witness: on a 1×2 grid whose two cells share merge group `"g"`,
toggling the checkbox of `(1,1)` drives `checked`/`isBlocked`/`isSelected`
of the partner `(1,2)`, while editing the value of `(1,1)` rewrites only the
partner's `sequenceNumber`. -/
theorem checkbox_drives_blocked_value_edit_does_not_witness :
    findCell (handleCheckboxChange
        [{ rowIndex := 1, cells := [{ defaultCell 1 1 with mergeId := "g" },
            { defaultCell 1 2 with mergeId := "g" }] }] 1 1) 1 2
      = some { defaultCell 1 2 with
          mergeId := "g", checked := true, isBlocked := true, isSelected := true } ∧
    findCell (handleCellValueChange
        [{ rowIndex := 1, cells := [{ defaultCell 1 1 with mergeId := "g" },
            { defaultCell 1 2 with mergeId := "g" }] }] 1 1 "7") 1 2
      = some { defaultCell 1 2 with mergeId := "g", sequenceNumber := "7" } := by
  have h := checkbox_drives_blocked_value_edit_does_not
    [{ rowIndex := 1, cells := [{ defaultCell 1 1 with mergeId := "g" },
        { defaultCell 1 2 with mergeId := "g" }] }] 1 1
    { defaultCell 1 1 with mergeId := "g" } (by decide)
  exact ⟨(h.1 (1, 2)).trans (by decide), (h.2.1 "7" (1, 2)).trans (by decide)⟩

theorem reset_default_shape (cell : CellObject) (h1 : cell.isMerged = false)
    (h2 : cell.isHidden = false) (h3 : cell.rowSpan = 1) (h4 : cell.colSpan = 1)
    (h5 : cell.mergeId = "") :
    ({ cell with
      isMerged := false
      rowSpan := 1
      colSpan := 1
      isHidden := false
      mergeId := "" } : CellObject) = cell := by
  cases cell
  simp_all

/-- The grid-lookup characterization of a successful merge over the
rectangle `[r1,r2] × [c1,c2]` on an unmerged grid: inside the rectangle each
cell is `mergeWrite` of the old cell, outside it nothing changes, the
selection collapses to the anchor and the mode is kept. -/
theorem mergeCells_unmerged_lookup (st : TableviewState) (r1 r2 c1 c2 : Nat)
    (hr : r1 ≤ r2) (hc : c1 ≤ c2) (harea : 2 ≤ (r2 - r1 + 1) * (c2 - c1 + 1))
    (hperm : st.selectedCells.Perm (rectList r1 r2 c1 c2))
    (hunm : unmergedGrid st.tableRows)
    (tl0 : CellObject) (htl : findCell st.tableRows r1 c1 = some tl0) :
    (∀ q : Nat × Nat, findCell (mergeCells st).1.tableRows q.1 q.2
      = if q ∈ rectList r1 r2 c1 c2 then
          (findCell st.tableRows q.1 q.2).map
            (mergeWrite tl0 (createMergeId r1 c1 r2 c2) r1 c1 r2 c2 q)
        else findCell st.tableRows q.1 q.2) ∧
    (mergeCells st).1.selectedCells = [(r1, c1)] ∧
    (mergeCells st).1.isSelectionMode = st.isSelectionMode := by
  have heval := mergeCells_eval st r1 r2 c1 c2 hr hc harea hperm
  have hdis : (rectList r1 r2 c1 c2).foldl dissolveAt st.tableRows = st.tableRows :=
    foldl_dissolveAt_unmerged _ _ hunm
  have hrows1 : (mergeCells st).1.tableRows
      = (rectList r1 r2 c1 c2).foldl
          (fun rs rc => updateCellAt rs rc.1 rc.2
            (mergeWrite tl0 (createMergeId r1 c1 r2 c2) r1 c1 r2 c2 rc))
          st.tableRows := by
    rw [heval]
    dsimp only
    rw [hdis, htl]
  refine ⟨?_, ?_, ?_⟩
  · intro q
    rw [hrows1]
    exact findCell_foldl_updateCellAt (rectList r1 r2 c1 c2) st.tableRows
      (fun rc => mergeWrite tl0 (createMergeId r1 c1 r2 c2) r1 c1 r2 c2 rc)
      (fun p x => rfl) (fun p x => rfl) q
  · rw [heval]
  · rw [heval]

/-- C2 (amended). On a grid with no merged cells, merging the rectangular
selection `[r1,r2] × [c1,c2]` (at least 2 cells) and then unmerging the
resulting anchor restores every member cell to `isMerged = false`,
`isHidden = false`, `rowSpan = colSpan = 1` and an empty group id, leaves
every cell outside the rectangle untouched — but each member's
`sequenceNumber`/`checked` (and the other value fields) now carry the
pre-merge top-left cell's values, because the merge copies the top-left
state over the whole region and unmerge does not restore it.  The values
bag is therefore preserved only when the region was uniform before the
merge (see the counterexample for the general claim). -/
theorem merge_unmerge_restores_unmerged_shape (st : TableviewState) (r1 r2 c1 c2 : Nat)
    (hr : r1 ≤ r2) (hc : c1 ≤ c2) (harea : 2 ≤ (r2 - r1 + 1) * (c2 - c1 + 1))
    (hperm : st.selectedCells.Perm (rectList r1 r2 c1 c2))
    (hunm : unmergedGrid st.tableRows)
    (tl0 : CellObject) (htl : findCell st.tableRows r1 c1 = some tl0) :
    (∀ q ∈ rectList r1 r2 c1 c2, ∀ cell0 : CellObject,
        findCell st.tableRows q.1 q.2 = some cell0 →
        findCell (unmergeCells (mergeCells st).1).tableRows q.1 q.2 = some
          { cell0 with
            sequenceNumber := tl0.sequenceNumber
            checked := tl0.checked
            isBlocked := tl0.isBlocked
            isSelected := tl0.isBlocked
            isBlank := tl0.isBlank
            isMerged := false
            mergeId := ""
            rowSpan := 1
            colSpan := 1
            isHidden := false }) ∧
    (∀ q : Nat × Nat, q ∉ rectList r1 r2 c1 c2 →
        findCell (unmergeCells (mergeCells st).1).tableRows q.1 q.2
          = findCell st.tableRows q.1 q.2) := by
  obtain ⟨hmerged, hsel1, hmode1⟩ :=
    mergeCells_unmerged_lookup st r1 r2 c1 c2 hr hc harea hperm hunm tl0 htl
  have hmem_tl : ((r1, c1) : Nat × Nat) ∈ rectList r1 r2 c1 c2 :=
    (mem_rectList hr hc (r1, c1)).mpr ⟨Nat.le_refl r1, hr, Nat.le_refl c1, hc⟩
  have hanchor : findCell (mergeCells st).1.tableRows r1 c1
      = some (mergeWrite tl0 (createMergeId r1 c1 r2 c2) r1 c1 r2 c2 (r1, c1) tl0) := by
    have h := hmerged (r1, c1)
    rw [if_pos hmem_tl] at h
    rw [h, htl]
    rfl
  have hgres : ∀ x : CellObject, ((fun cell : CellObject =>
      if cell.mergeId == createMergeId r1 c1 r2 c2 then
        { cell with
          isMerged := false
          rowSpan := 1
          colSpan := 1
          isHidden := false
          mergeId := "" }
      else cell) x).columnIndex = x.columnIndex := by
    intro x
    by_cases hx : (x.mergeId == createMergeId r1 c1 r2 c2) = true <;> simp [hx]
  have hunm_eq : ∀ q : Nat × Nat,
      findCell (unmergeCells (mergeCells st).1).tableRows q.1 q.2
        = (findCell (mergeCells st).1.tableRows q.1 q.2).map (fun cell =>
            if cell.mergeId == createMergeId r1 c1 r2 c2 then
              { cell with
                isMerged := false
                rowSpan := 1
                colSpan := 1
                isHidden := false
                mergeId := "" }
            else cell) := by
    intro q
    have hres : unmergeCells (mergeCells st).1
        = { (mergeCells st).1 with
            tableRows := mapCells (mergeCells st).1.tableRows (fun cell =>
              if cell.mergeId == createMergeId r1 c1 r2 c2 then
                { cell with
                  isMerged := false
                  rowSpan := 1
                  colSpan := 1
                  isHidden := false
                  mergeId := "" }
              else cell) } := by
      unfold unmergeCells
      rw [hsel1]
      dsimp only
      rw [hanchor]
      simp [mergeWrite]
      exact hsel1.symm
    rw [hres]
    dsimp only
    exact findCell_mapCells _ _ hgres q.1 q.2
  constructor
  · intro q hq cell0 hcell0
    rw [hunm_eq q]
    have h := hmerged q
    rw [if_pos hq, hcell0] at h
    rw [h]
    simp only [Option.map_some']
    have hcond : ((mergeWrite tl0 (createMergeId r1 c1 r2 c2) r1 c1 r2 c2 q cell0).mergeId
        == createMergeId r1 c1 r2 c2) = true := by
      simp [mergeWrite]
    rw [if_pos hcond]
    rfl
  · intro q hq
    rw [hunm_eq q]
    have h := hmerged q
    rw [if_neg hq] at h
    rw [h]
    cases hcell : findCell st.tableRows q.1 q.2 with
    | none => rfl
    | some cell0 =>
      simp only [Option.map_some']
      obtain ⟨hm1, hm2, hm3, hm4, hm5⟩ := hunm cell0 (findCell_mem _ _ _ hcell)
      by_cases hmid : (cell0.mergeId == createMergeId r1 c1 r2 c2) = true
      · rw [if_pos hmid, reset_default_shape cell0 hm1 hm2 hm3 hm4 hm5]
      · rw [if_neg hmid]

/-- C2 witness: on an unmerged 1×2 default grid, `merge` of the full
rectangle followed by `unmerge` on the resulting anchor restores the member
`(1,2)` to the unmerged default shape, and leaves a position outside the
rectangle untouched. -/
theorem merge_unmerge_restores_unmerged_shape_witness :
    findCell (unmergeCells (mergeCells ⟨[{ rowIndex := 1, cells :=
          [defaultCell 1 1, defaultCell 1 2] }], [(1, 1), (1, 2)], true⟩).1).tableRows 1 2
      = some (defaultCell 1 2) ∧
    findCell (unmergeCells (mergeCells ⟨[{ rowIndex := 1, cells :=
          [defaultCell 1 1, defaultCell 1 2] }], [(1, 1), (1, 2)], true⟩).1).tableRows 3 3
      = none := by
  have h := merge_unmerge_restores_unmerged_shape
    ⟨[{ rowIndex := 1, cells := [defaultCell 1 1, defaultCell 1 2] }],
      [(1, 1), (1, 2)], true⟩ 1 1 1 2
    (by decide) (by decide) (by decide) (by decide)
    (by unfold unmergedGrid; decide)
    (defaultCell 1 1) (by decide)
  exact ⟨(h.1 (1, 2) (by decide) (defaultCell 1 2) (by decide)).trans (by decide),
    (h.2 (3, 3) (by decide)).trans (by decide)⟩

/-- C2 counterexample: on the unmerged 1×2 grid with values `"a"`, `"b"`,
merging the selection `{(1,1),(1,2)}` and unmerging the anchor leaves both
cells with value `"a"`: the bag of `(sequenceNumber, checked)` pairs across
the region is NOT unchanged from before the merge, contradicting the claim's
bag-preservation clause. -/
theorem merge_unmerge_changes_value_bag :
    ¬ (((allCells (unmergeCells (mergeCells ⟨[{ rowIndex := 1, cells :=
            [{ defaultCell 1 1 with sequenceNumber := "a" },
              { defaultCell 1 2 with sequenceNumber := "b" }] }],
            [(1, 1), (1, 2)], true⟩).1).tableRows).map
          (fun c => (c.sequenceNumber, c.checked))).Perm
        ((allCells [{ rowIndex := 1, cells :=
            [{ defaultCell 1 1 with sequenceNumber := "a" },
              { defaultCell 1 2 with sequenceNumber := "b" }] }]).map
          (fun c => (c.sequenceNumber, c.checked)))) := by
  decide

/-- C9. After every successful merge of the rectangular selection
`[r1,r2] × [c1,c2]`, each cell of the merged rectangle (anchor and hidden
members alike) has `isSelected` set to the top-left cell's pre-merge
`isBlocked`, while its `checked` and `isBlocked` are copied from the
top-left cell's pre-merge `checked` and `isBlocked`; consequently
`isSelected = checked` holds for a member exactly when the top-left cell had
`isBlocked = checked` before the merge. -/
theorem merge_sets_isSelected_from_blocked (st : TableviewState) (r1 r2 c1 c2 : Nat)
    (hr : r1 ≤ r2) (hc : c1 ≤ c2) (harea : 2 ≤ (r2 - r1 + 1) * (c2 - c1 + 1))
    (hperm : st.selectedCells.Perm (rectList r1 r2 c1 c2))
    (tlPre : CellObject) (htl : findCell st.tableRows r1 c1 = some tlPre) :
    ∀ q ∈ rectList r1 r2 c1 c2, ∀ cell1 : CellObject,
      findCell (mergeCells st).1.tableRows q.1 q.2 = some cell1 →
      cell1.isSelected = tlPre.isBlocked ∧ cell1.checked = tlPre.checked ∧
        cell1.isBlocked = tlPre.isBlocked ∧
        ((cell1.isSelected = cell1.checked) ↔ (tlPre.isBlocked = tlPre.checked)) := by
  have heval := mergeCells_eval st r1 r2 c1 c2 hr hc harea hperm
  have hval := findCell_foldl_dissolveAt_valueView (rectList r1 r2 c1 c2) st.tableRows r1 c1
  rw [htl] at hval
  cases htl1 : findCell ((rectList r1 r2 c1 c2).foldl dissolveAt st.tableRows) r1 c1 with
  | none =>
    rw [htl1] at hval
    simp at hval
  | some tl =>
    rw [htl1] at hval
    simp only [Option.map_some', Option.some.injEq] at hval
    have hch : tl.checked = tlPre.checked := by
      have := congrArg (fun t : String × Bool × Bool × Bool => t.2.1) hval
      simpa [valueView] using this
    have hbl : tl.isBlocked = tlPre.isBlocked := by
      have := congrArg (fun t : String × Bool × Bool × Bool => t.2.2.1) hval
      simpa [valueView] using this
    have hrows1 : (mergeCells st).1.tableRows
        = (rectList r1 r2 c1 c2).foldl
            (fun rs rc => updateCellAt rs rc.1 rc.2
              (mergeWrite tl (createMergeId r1 c1 r2 c2) r1 c1 r2 c2 rc))
            ((rectList r1 r2 c1 c2).foldl dissolveAt st.tableRows) := by
      rw [heval]
      dsimp only
      rw [htl1]
    intro q hq cell1 hcell1
    rw [hrows1, findCell_foldl_updateCellAt (rectList r1 r2 c1 c2) _
        (fun rc => mergeWrite tl (createMergeId r1 c1 r2 c2) r1 c1 r2 c2 rc)
        (fun p x => rfl) (fun p x => rfl) q, if_pos hq] at hcell1
    cases hc0 : findCell ((rectList r1 r2 c1 c2).foldl dissolveAt st.tableRows) q.1 q.2 with
    | none =>
      rw [hc0] at hcell1
      simp at hcell1
    | some x =>
      rw [hc0] at hcell1
      simp only [Option.map_some', Option.some.injEq] at hcell1
      rw [← hcell1]
      refine ⟨?_, ?_, ?_, ?_⟩
      · simpa [mergeWrite] using hbl
      · simpa [mergeWrite] using hch
      · simpa [mergeWrite] using hbl
      · simp only [mergeWrite]
        rw [hbl, hch]

/-- C9 witness: merging the 1×2 rectangle whose top-left cell has
`isBlocked = true` but `checked = false` gives the hidden member `(1,2)`
`isSelected = true` (the top-left's pre-merge `isBlocked`) while its
`checked` stays `false`, so `isSelected ≠ checked` for the group exactly as
the top-left had `isBlocked ≠ checked`. -/
theorem merge_sets_isSelected_from_blocked_witness :
    ({ defaultCell 1 2 with
        isBlocked := true
        isMerged := true
        mergeId := "1112"
        isSelected := true
        isHidden := true } : CellObject).isSelected = true ∧
    ({ defaultCell 1 2 with
        isBlocked := true
        isMerged := true
        mergeId := "1112"
        isSelected := true
        isHidden := true } : CellObject).checked = false ∧
    ({ defaultCell 1 2 with
        isBlocked := true
        isMerged := true
        mergeId := "1112"
        isSelected := true
        isHidden := true } : CellObject).isBlocked = true := by
  have h := merge_sets_isSelected_from_blocked
    ⟨[{ rowIndex := 1, cells :=
        [{ defaultCell 1 1 with isBlocked := true }, defaultCell 1 2] }],
      [(1, 1), (1, 2)], false⟩ 1 1 1 2
    (by decide) (by decide) (by decide) (by decide)
    { defaultCell 1 1 with isBlocked := true } (by decide)
    (1, 2) (by decide)
    { defaultCell 1 2 with
      isBlocked := true
      isMerged := true
      mergeId := "1112"
      isSelected := true
      isHidden := true }
    (by decide)
  exact ⟨h.1.trans (by decide), h.2.1.trans (by decide), h.2.2.1.trans (by decide)⟩

/-- C7. While dragging from anchor `(r0,c0)` into `(r1,c1)` the new active
selection is the restore-point snapshot unioned with exactly the inclusive
rectangle `[min r0 r1, max r0 r1] × [min c0 c1, max c0 c1]` (cell ids are
produced from indices alone, independent of hidden/merged state); in
particular a drag from `(2,2)` to `(4,1)` with an empty restore point
selects exactly the 6 cells of rows 2–4, columns 1–2. -/
theorem handleCellMouseEnter_rect_union (preSelection : List (Nat × Nat))
    (r0 c0 r1 c1 : Nat) :
    (∀ p : Nat × Nat, p ∈ handleCellMouseEnter preSelection r0 c0 r1 c1 ↔
      (p ∈ preSelection ∨
        (Nat.min r0 r1 ≤ p.1 ∧ p.1 ≤ Nat.max r0 r1 ∧
          Nat.min c0 c1 ≤ p.2 ∧ p.2 ≤ Nat.max c0 c1))) ∧
    handleCellMouseEnter [] 2 2 4 1 = [(2, 1), (2, 2), (3, 1), (3, 2), (4, 1), (4, 2)] := by
  constructor
  · intro p
    have hmem := mem_rectList (a := Nat.min r0 r1) (b := Nat.max r0 r1)
      (d := Nat.min c0 c1) (e := Nat.max c0 c1) min_le_max min_le_max p
    rw [← hmem]
    simp only [handleCellMouseEnter, getRectangularSelection, List.mem_append,
      List.mem_filter, Bool.not_eq_true', List.contains, List.elem_eq_mem,
      decide_eq_false_iff_not]
    by_cases hp : p ∈ preSelection <;> simp [hp]
  · decide

/-- C8. For every non-empty selection, blank (resp. unblank) leaves a grid
in which a cell at position `q` carries `isBlank = true` (resp. `false`)
exactly when some selected id resolves to an existing, non-hidden cell that
is `q` itself or a fellow member of its merge group (`blankTouch`) — so
selected ids resolving to hidden or missing cells are skipped while the rest
of the batch is processed — and every other cell is untouched; both
operations then empty the selection and exit selection mode. -/
theorem blank_unblank_selected_cells (st : TableviewState)
    (hne : st.selectedCells ≠ []) :
    ((blankSelectedCells st).selectedCells = [] ∧
      (blankSelectedCells st).isSelectionMode = false ∧
      (∀ q : Nat × Nat, findCell (blankSelectedCells st).tableRows q.1 q.2
        = (findCell st.tableRows q.1 q.2).map (fun cell =>
            if st.selectedCells.any (fun rc => blankTouch st.tableRows rc q cell) then
              { cell with isBlank := true }
            else cell))) ∧
    ((unblankSelectedCells st).selectedCells = [] ∧
      (unblankSelectedCells st).isSelectionMode = false ∧
      (∀ q : Nat × Nat, findCell (unblankSelectedCells st).tableRows q.1 q.2
        = (findCell st.tableRows q.1 q.2).map (fun cell =>
            if st.selectedCells.any (fun rc => blankTouch st.tableRows rc q cell) then
              { cell with isBlank := false }
            else cell))) := by
  have hempty : st.selectedCells.isEmpty = false := by
    cases hsel : st.selectedCells with
    | nil => exact absurd hsel hne
    | cons a l => rfl
  refine ⟨⟨?_, ?_, ?_⟩, ⟨?_, ?_, ?_⟩⟩
  · simp [blankSelectedCells, hempty]
  · simp [blankSelectedCells, hempty]
  · intro q
    have hrw : (blankSelectedCells st).tableRows
        = st.selectedCells.foldl (setBlankStep true) st.tableRows := by
      simp [blankSelectedCells, hempty]
    rw [hrw]
    exact findCell_foldl_setBlankStep true st.selectedCells st.tableRows q
  · simp [unblankSelectedCells, hempty]
  · simp [unblankSelectedCells, hempty]
  · intro q
    have hrw : (unblankSelectedCells st).tableRows
        = st.selectedCells.foldl (setBlankStep false) st.tableRows := by
      simp [unblankSelectedCells, hempty]
    rw [hrw]
    exact findCell_foldl_setBlankStep false st.selectedCells st.tableRows q

/-- C8 witness: selecting the hidden cell `(1,2)` and the visible cell
`(1,1)`, blanking skips the hidden id but still blanks the visible one, then
clears the selection and leaves selection mode. -/
theorem blank_unblank_selected_cells_witness :
    (blankSelectedCells ⟨[{ rowIndex := 1, cells :=
        [defaultCell 1 1, { defaultCell 1 2 with isHidden := true }] }],
        [(1, 2), (1, 1)], true⟩).selectedCells = [] ∧
    (blankSelectedCells ⟨[{ rowIndex := 1, cells :=
        [defaultCell 1 1, { defaultCell 1 2 with isHidden := true }] }],
        [(1, 2), (1, 1)], true⟩).isSelectionMode = false ∧
    findCell (blankSelectedCells ⟨[{ rowIndex := 1, cells :=
        [defaultCell 1 1, { defaultCell 1 2 with isHidden := true }] }],
        [(1, 2), (1, 1)], true⟩).tableRows 1 1
      = some { defaultCell 1 1 with isBlank := true } ∧
    findCell (blankSelectedCells ⟨[{ rowIndex := 1, cells :=
        [defaultCell 1 1, { defaultCell 1 2 with isHidden := true }] }],
        [(1, 2), (1, 1)], true⟩).tableRows 1 2
      = some { defaultCell 1 2 with isHidden := true } := by
  have h := blank_unblank_selected_cells ⟨[{ rowIndex := 1, cells :=
      [defaultCell 1 1, { defaultCell 1 2 with isHidden := true }] }],
      [(1, 2), (1, 1)], true⟩ (by decide)
  exact ⟨h.1.1, h.1.2.1, (h.1.2.2 (1, 1)).trans (by decide),
    (h.1.2.2 (1, 2)).trans (by decide)⟩

end Tableview
